import Mathlib

/-
  Verification of lib/web3/eth.js from ethereum.js.

  The file under verification is a static descriptor table for the
  web3.eth JSON-RPC surface: five small call-selector functions that
  pick between a "by-hash" and a "by-number" RPC method name, a list
  of 17 method descriptors, and a list of 8 property descriptors.

  JavaScript values reaching the selector functions are modelled by the
  inductive type JSVal; an argument list is a List JSVal and reading
  args[0] of an empty list yields the undefined value, as in JavaScript.
  String.prototype.indexOf is modelled by jsIndexOf over the character
  list of the string.
-/

namespace Eth

/-- Model of the JavaScript values that can appear in an argument list:
strings, numbers, booleans, undefined, and (opaque, numbered) objects. -/
inductive JSVal where
  | str : String → JSVal
  | num : Int → JSVal
  | boolean : Bool → JSVal
  | undef : JSVal
  | obj : Nat → JSVal
deriving DecidableEq, Repr

/-- JavaScript indexing args[i]: the element when present, undefined when
the list is too short. -/
def jsIndex (args : List JSVal) (i : Nat) : JSVal :=
  args.getD i JSVal.undef

/-- beginsWith needle hay: the character list hay starts with needle. -/
def beginsWith : List Char → List Char → Bool
  | [], _ => true
  | _ :: _, [] => false
  | a :: as, b :: bs => a == b && beginsWith as bs

/-- Helper for jsIndexOf: first position at or after i where needle
occurs in hay, or -1 when there is none. -/
def jsIndexOfAux (needle : List Char) : List Char → Nat → Int
  | [], i => if beginsWith needle [] then (i : Int) else -1
  | c :: t, i =>
      if beginsWith needle (c :: t) then (i : Int)
      else jsIndexOfAux needle t (i + 1)

/-- Model of JavaScript s.indexOf(sub): index of the first occurrence of
sub in s, or -1 when sub does not occur. -/
def jsIndexOf (s : String) (sub : String) : Int :=
  jsIndexOfAux sub.data s.data 0

/-- Modelled from the spec: utils.isString from lib/utils/utils.js is not
under src/; per the spec the selector test asks whether argument[0]
"is a string value", so isString recognises exactly the string values. -/
def isString : JSVal → Bool
  | JSVal.str _ => true
  | _ => false

/-- The test shared by the five call-selector functions in eth.js:
utils.isString(args[0]) && args[0].indexOf('0x') === 0.  The conjunction
short-circuits, so indexOf is only consulted on string values. -/
def isHashFirstArg (args : List JSVal) : Bool :=
  isString (jsIndex args 0) &&
    (match jsIndex args 0 with
     | JSVal.str s => jsIndexOf s "0x" == 0
     | _ => false)

/-- var blockCall = function (args) \x7b ... \x7d from eth.js. -/
def blockCall (args : List JSVal) : String :=
  if isHashFirstArg args then "eth_getBlockByHash" else "eth_getBlockByNumber"

/-- var transactionFromBlockCall = function (args) \x7b ... \x7d from eth.js. -/
def transactionFromBlockCall (args : List JSVal) : String :=
  if isHashFirstArg args then "eth_getTransactionByBlockHashAndIndex"
  else "eth_getTransactionByBlockNumberAndIndex"

/-- var uncleCall = function (args) \x7b ... \x7d from eth.js. -/
def uncleCall (args : List JSVal) : String :=
  if isHashFirstArg args then "eth_getUncleByBlockHashAndIndex"
  else "eth_getUncleByBlockNumberAndIndex"

/-- var getBlockTransactionCountCall = function (args) \x7b ... \x7d from eth.js. -/
def getBlockTransactionCountCall (args : List JSVal) : String :=
  if isHashFirstArg args then "eth_getBlockTransactionCountByHash"
  else "eth_getBlockTransactionCountByNumber"

/-- var uncleCountCall = function (args) \x7b ... \x7d from eth.js. -/
def uncleCountCall (args : List JSVal) : String :=
  if isHashFirstArg args then "eth_getUncleCountByBlockHash"
  else "eth_getUncleCountByBlockNumber"

/-- Spec-side restatement of the hash test, written from the words of the
spec: argument[0] is "a string value beginning with the two-character
prefix 0x".  Compared against the code-side isHashFirstArg. -/
def specHashArg (args : List JSVal) : Bool :=
  match jsIndex args 0 with
  | JSVal.str s => beginsWith ['0', 'x'] s.data
  | _ => false

/-- Tags naming the formatter functions referenced by eth.js; the
formatter implementations live in lib/web3/formatters.js and
lib/utils/utils.js, outside the file under verification, so descriptors
record which formatter is attached, not its behaviour. -/
inductive Formatter where
  | inputNumberFormatter
  | outputBlockFormatter
  | inputBlockFormatter
  | inputUncleFormatter
  | outputTransactionFormatter
  | inputTransactionFormatter
  | inputCallFormatter
  | toDecimal
  | toHex
deriving DecidableEq, Repr

/-- The call field of a method descriptor: either a fixed RPC selector
string or a selector function of the argument list. -/
inductive CallField where
  | fixed : String → CallField
  | selector : (List JSVal → String) → CallField

/-- An input formatter as attached in eth.js: a single function, or an
array of per-argument functions (an absent array element means the
argument passes through unchanged). -/
inductive InputFormatterSpec where
  | single : Formatter → InputFormatterSpec
  | perArg : List (Option Formatter) → InputFormatterSpec
deriving DecidableEq, Repr

/-- A method descriptor, the argument object of each new Method(...) in
eth.js: name, call, params, and the optional formatters. -/
structure Method where
  name : String
  call : CallField
  params : Int
  inputFormatter : Option InputFormatterSpec
  outputFormatter : Option Formatter

/-- A property descriptor from the properties array of eth.js. -/
structure Property where
  name : String
  getter : String
  setter : Option String
  outputFormatter : Option Formatter
  deprecated : Option String
deriving DecidableEq, Repr

def getBalance : Method :=
  { name := "getBalance", call := CallField.fixed "eth_getBalance",
    params := 2, inputFormatter := none,
    outputFormatter := some Formatter.inputNumberFormatter }

def getStorageAt : Method :=
  { name := "getStorageAt", call := CallField.fixed "eth_getStorageAt",
    params := 3, inputFormatter := none, outputFormatter := none }

def getCode : Method :=
  { name := "getCode", call := CallField.fixed "eth_getCode",
    params := 2, inputFormatter := none, outputFormatter := none }

def getBlock : Method :=
  { name := "getBlock", call := CallField.selector blockCall,
    params := 1,
    inputFormatter := some (InputFormatterSpec.single Formatter.inputBlockFormatter),
    outputFormatter := some Formatter.outputBlockFormatter }

def getUncle : Method :=
  { name := "getUncle", call := CallField.selector uncleCall,
    params := 1,
    inputFormatter := some (InputFormatterSpec.single Formatter.inputUncleFormatter),
    outputFormatter := some Formatter.outputBlockFormatter }

def getCompilers : Method :=
  { name := "getCompilers", call := CallField.fixed "eth_getCompilers",
    params := 0, inputFormatter := none, outputFormatter := none }

/-- The source variable is spelled getBlockTransactounCount in eth.js;
the descriptor name it carries is getBlockTransactionCount. -/
def getBlockTransactounCount : Method :=
  { name := "getBlockTransactionCount",
    call := CallField.selector getBlockTransactionCountCall,
    params := 1,
    inputFormatter := some (InputFormatterSpec.single Formatter.toHex),
    outputFormatter := some Formatter.toDecimal }

def getBlockUncleCount : Method :=
  { name := "getBlockUncleCount", call := CallField.selector uncleCountCall,
    params := 1,
    inputFormatter := some (InputFormatterSpec.single Formatter.toHex),
    outputFormatter := some Formatter.toDecimal }

def getTransaction : Method :=
  { name := "getTransaction", call := CallField.fixed "eth_getTransactionByHash",
    params := 1, inputFormatter := none,
    outputFormatter := some Formatter.outputTransactionFormatter }

def getTransactionFromBlock : Method :=
  { name := "getTransactionFromBlock",
    call := CallField.selector transactionFromBlockCall,
    params := 2,
    inputFormatter := some (InputFormatterSpec.single Formatter.toHex),
    outputFormatter := some Formatter.outputTransactionFormatter }

def getTransactionCount : Method :=
  { name := "getTransactionCount", call := CallField.fixed "eth_getTransactionCount",
    params := 2, inputFormatter := none,
    outputFormatter := some Formatter.toDecimal }

def sendTransaction : Method :=
  { name := "sendTransaction", call := CallField.fixed "eth_sendTransaction",
    params := 1,
    inputFormatter := some (InputFormatterSpec.single Formatter.inputTransactionFormatter),
    outputFormatter := none }

def call : Method :=
  { name := "call", call := CallField.fixed "eth_call",
    params := 2,
    inputFormatter := some (InputFormatterSpec.single Formatter.inputCallFormatter),
    outputFormatter := none }

def compileSolidity : Method :=
  { name := "compile.solidity", call := CallField.fixed "eth_compileSolidity",
    params := 1, inputFormatter := none, outputFormatter := none }

def compileLLL : Method :=
  { name := "compile.lll", call := CallField.fixed "eth_compileLLL",
    params := 1,
    inputFormatter := some (InputFormatterSpec.single Formatter.toHex),
    outputFormatter := none }

def compileSerpent : Method :=
  { name := "compile.serpent", call := CallField.fixed "eth_compileSerpent",
    params := 1,
    inputFormatter := some (InputFormatterSpec.single Formatter.toHex),
    outputFormatter := none }

def flush : Method :=
  { name := "flush", call := CallField.fixed "eth_flush",
    params := 0, inputFormatter := none, outputFormatter := none }

/-- The methods array exported by eth.js, in source order. -/
def methods : List Method :=
  [ getBalance,
    getStorageAt,
    getCode,
    getBlock,
    getUncle,
    getCompilers,
    getBlockTransactounCount,
    getBlockUncleCount,
    getTransaction,
    getTransactionFromBlock,
    getTransactionCount,
    call,
    sendTransaction,
    compileSolidity,
    compileLLL,
    compileSerpent,
    flush ]

/-- The properties array exported by eth.js, in source order. -/
def properties : List Property :=
  [ { name := "coinbase", getter := "eth_coinbase",
      setter := none, outputFormatter := none, deprecated := none },
    { name := "mining", getter := "eth_mining",
      setter := none, outputFormatter := none, deprecated := none },
    { name := "gasPrice", getter := "eth_gasPrice",
      setter := none, outputFormatter := some Formatter.inputNumberFormatter,
      deprecated := none },
    { name := "accounts", getter := "eth_accounts",
      setter := none, outputFormatter := none, deprecated := none },
    { name := "blockNumber", getter := "eth_blockNumber",
      setter := none, outputFormatter := some Formatter.toDecimal,
      deprecated := none },
    { name := "listening", getter := "net_listening",
      setter := some "eth_setListening", outputFormatter := none,
      deprecated := some "net.listening" },
    { name := "peerCount", getter := "net_peerCount",
      setter := none, outputFormatter := none,
      deprecated := some "net.peerCount" },
    { name := "number", getter := "eth_number",
      setter := none, outputFormatter := none,
      deprecated := some "eth.blockNumber" } ]

/-- The result of jsIndexOfAux is either -1 or at least the starting
index i. -/
theorem jsIndexOfAux_lower (needle hay : List Char) (i : Nat) :
    jsIndexOfAux needle hay i = -1 ∨ (i : Int) ≤ jsIndexOfAux needle hay i := by
  induction hay generalizing i with
  | nil =>
      by_cases h : beginsWith needle [] = true
      · right; simp [jsIndexOfAux, h]
      · left; simp [jsIndexOfAux, h]
  | cons c t ih =>
      by_cases h : beginsWith needle (c :: t) = true
      · right; simp [jsIndexOfAux, h]
      · rcases ih (i + 1) with h1 | h1
        · left; simp [jsIndexOfAux, h, h1]
        · right
          simp only [jsIndexOfAux, h, if_false, Bool.false_eq_true]
          push_cast at h1
          omega

/-- jsIndexOfAux returns its starting index exactly when the needle
occurs at the head of the haystack. -/
theorem jsIndexOfAux_eq_start_iff (needle hay : List Char) (i : Nat) :
    jsIndexOfAux needle hay i = (i : Int) ↔ beginsWith needle hay = true := by
  constructor
  · intro hEq
    by_contra h
    cases hay with
    | nil =>
        simp [jsIndexOfAux, h] at hEq
    | cons c t =>
        simp only [jsIndexOfAux, h, if_false, Bool.false_eq_true] at hEq
        rcases jsIndexOfAux_lower needle t (i + 1) with h1 | h1
        · rw [h1] at hEq; omega
        · rw [hEq] at h1; push_cast at h1; omega
  · intro h
    cases hay <;> simp [jsIndexOfAux, h]

/-- The indexOf-based test of eth.js anchored at 0 coincides with a
two-character prefix check. -/
theorem jsIndexOf_hash_zero_iff (s : String) :
    jsIndexOf s "0x" = 0 ↔ beginsWith ['0', 'x'] s.data = true := by
  have h : "0x".data = ['0', 'x'] := rfl
  unfold jsIndexOf
  rw [h]
  simpa using jsIndexOfAux_eq_start_iff ['0', 'x'] s.data 0

/-- The code-side hash test equals the spec-side prefix test. -/
theorem isHashFirstArg_eq_specHashArg (args : List JSVal) :
    isHashFirstArg args = specHashArg args := by
  unfold isHashFirstArg specHashArg
  cases hv : jsIndex args 0 with
  | str s =>
      simp only [isString, Bool.true_and]
      cases hb : beginsWith ['0', 'x'] s.data with
      | false =>
          have hne : ¬ jsIndexOf s "0x" = 0 := by
            intro hc
            have := (jsIndexOf_hash_zero_iff s).1 hc
            rw [hb] at this
            exact Bool.false_ne_true this
          simp [hne]
      | true =>
          have h0 : jsIndexOf s "0x" = 0 := (jsIndexOf_hash_zero_iff s).2 hb
          simp [h0]
  | num n => simp [isString]
  | boolean b => simp [isString]
  | undef => simp [isString]
  | obj k => simp [isString]

/-- Claim C1: each of the five call-selector functions returns the
by-hash selector exactly when argument 0 is a string beginning with the
prefix "0x" (the spec-side test specHashArg), and the by-number selector
otherwise. -/
theorem selectors_follow_spec_hash_rule (args : List JSVal) :
    blockCall args =
      (if specHashArg args then "eth_getBlockByHash" else "eth_getBlockByNumber") ∧
    transactionFromBlockCall args =
      (if specHashArg args then "eth_getTransactionByBlockHashAndIndex"
       else "eth_getTransactionByBlockNumberAndIndex") ∧
    uncleCall args =
      (if specHashArg args then "eth_getUncleByBlockHashAndIndex"
       else "eth_getUncleByBlockNumberAndIndex") ∧
    getBlockTransactionCountCall args =
      (if specHashArg args then "eth_getBlockTransactionCountByHash"
       else "eth_getBlockTransactionCountByNumber") ∧
    uncleCountCall args =
      (if specHashArg args then "eth_getUncleCountByBlockHash"
       else "eth_getUncleCountByBlockNumber") := by
  simp [blockCall, transactionFromBlockCall, uncleCall,
    getBlockTransactionCountCall, uncleCountCall, isHashFirstArg_eq_specHashArg]

/-- Claim C2: the exported method sequence holds exactly the 17
operations of the spec table, in order, with the declared call field,
parameter count and input/output formatters of each. -/
theorem methods_table_matches_spec :
    methods.map Method.name =
      ["getBalance", "getStorageAt", "getCode", "getBlock", "getUncle",
       "getCompilers", "getBlockTransactionCount", "getBlockUncleCount",
       "getTransaction", "getTransactionFromBlock", "getTransactionCount",
       "call", "sendTransaction", "compile.solidity", "compile.lll",
       "compile.serpent", "flush"] ∧
    methods.map Method.params =
      [2, 3, 2, 1, 1, 0, 1, 1, 1, 2, 2, 2, 1, 1, 1, 1, 0] ∧
    methods.map Method.call =
      [CallField.fixed "eth_getBalance", CallField.fixed "eth_getStorageAt",
       CallField.fixed "eth_getCode", CallField.selector blockCall,
       CallField.selector uncleCall, CallField.fixed "eth_getCompilers",
       CallField.selector getBlockTransactionCountCall,
       CallField.selector uncleCountCall,
       CallField.fixed "eth_getTransactionByHash",
       CallField.selector transactionFromBlockCall,
       CallField.fixed "eth_getTransactionCount", CallField.fixed "eth_call",
       CallField.fixed "eth_sendTransaction",
       CallField.fixed "eth_compileSolidity",
       CallField.fixed "eth_compileLLL", CallField.fixed "eth_compileSerpent",
       CallField.fixed "eth_flush"] ∧
    methods.map Method.inputFormatter =
      [none, none, none,
       some (InputFormatterSpec.single Formatter.inputBlockFormatter),
       some (InputFormatterSpec.single Formatter.inputUncleFormatter), none,
       some (InputFormatterSpec.single Formatter.toHex),
       some (InputFormatterSpec.single Formatter.toHex), none,
       some (InputFormatterSpec.single Formatter.toHex), none,
       some (InputFormatterSpec.single Formatter.inputCallFormatter),
       some (InputFormatterSpec.single Formatter.inputTransactionFormatter),
       none,
       some (InputFormatterSpec.single Formatter.toHex),
       some (InputFormatterSpec.single Formatter.toHex), none] ∧
    methods.map Method.outputFormatter =
      [some Formatter.inputNumberFormatter, none, none,
       some Formatter.outputBlockFormatter, some Formatter.outputBlockFormatter,
       none, some Formatter.toDecimal, some Formatter.toDecimal,
       some Formatter.outputTransactionFormatter,
       some Formatter.outputTransactionFormatter, some Formatter.toDecimal,
       none, none, none, none, none, none] :=
  ⟨rfl, rfl, rfl, rfl, rfl⟩

/-- Claim C3: the getTransactionFromBlock descriptor declares params 2,
uses the hash/number selector function as its call, carries the
transaction output formatter, and its input formatter is a single
(non-array) hex conversion function. -/
theorem getTransactionFromBlock_shape :
    getTransactionFromBlock.params = 2 ∧
    getTransactionFromBlock.call = CallField.selector transactionFromBlockCall ∧
    getTransactionFromBlock.outputFormatter =
      some Formatter.outputTransactionFormatter ∧
    getTransactionFromBlock.inputFormatter =
      some (InputFormatterSpec.single Formatter.toHex) :=
  ⟨rfl, rfl, rfl, rfl⟩

/-- Claim C4: the exported property sequence holds exactly the eight
properties of the spec, in order, with the declared getters, the one
setter, the two output formatters and the three deprecated paths; and a
lookup by name "listening" yields deprecated net.listening and setter
eth_setListening. -/
theorem properties_table_matches_spec :
    properties.map Property.name =
      ["coinbase", "mining", "gasPrice", "accounts", "blockNumber",
       "listening", "peerCount", "number"] ∧
    properties.map Property.getter =
      ["eth_coinbase", "eth_mining", "eth_gasPrice", "eth_accounts",
       "eth_blockNumber", "net_listening", "net_peerCount", "eth_number"] ∧
    properties.map Property.setter =
      [none, none, none, none, none, some "eth_setListening", none, none] ∧
    properties.map Property.outputFormatter =
      [none, none, some Formatter.inputNumberFormatter, none,
       some Formatter.toDecimal, none, none, none] ∧
    properties.map Property.deprecated =
      [none, none, none, none, none, some "net.listening",
       some "net.peerCount", some "eth.blockNumber"] ∧
    (properties.find? (fun p => p.name == "listening")).map Property.deprecated =
      some (some "net.listening") ∧
    (properties.find? (fun p => p.name == "listening")).map Property.setter =
      some (some "eth_setListening") :=
  ⟨rfl, rfl, rfl, rfl, rfl, rfl, rfl⟩

/-- Claim C5: every selector function is total and two-valued: on any
argument list, each returns one of its two selector strings. -/
theorem selectors_total_two_valued (args : List JSVal) :
    (blockCall args = "eth_getBlockByHash" ∨
       blockCall args = "eth_getBlockByNumber") ∧
    (transactionFromBlockCall args = "eth_getTransactionByBlockHashAndIndex" ∨
       transactionFromBlockCall args = "eth_getTransactionByBlockNumberAndIndex") ∧
    (uncleCall args = "eth_getUncleByBlockHashAndIndex" ∨
       uncleCall args = "eth_getUncleByBlockNumberAndIndex") ∧
    (getBlockTransactionCountCall args = "eth_getBlockTransactionCountByHash" ∨
       getBlockTransactionCountCall args = "eth_getBlockTransactionCountByNumber") ∧
    (uncleCountCall args = "eth_getUncleCountByBlockHash" ∨
       uncleCountCall args = "eth_getUncleCountByBlockNumber") := by
  cases h : isHashFirstArg args <;>
    simp [blockCall, transactionFromBlockCall, uncleCall,
      getBlockTransactionCountCall, uncleCountCall, h]

/-- Claim C6: each selector function depends only on the element at
index 0 of its argument list: two argument lists agreeing there produce
the same selector from every one of the five functions. -/
theorem selectors_depend_only_on_first_arg (a b : List JSVal)
    (h : jsIndex a 0 = jsIndex b 0) :
    blockCall a = blockCall b ∧
    transactionFromBlockCall a = transactionFromBlockCall b ∧
    uncleCall a = uncleCall b ∧
    getBlockTransactionCountCall a = getBlockTransactionCountCall b ∧
    uncleCountCall a = uncleCountCall b := by
  have ht : isHashFirstArg a = isHashFirstArg b := by
    unfold isHashFirstArg
    rw [h]
  simp [blockCall, transactionFromBlockCall, uncleCall,
    getBlockTransactionCountCall, uncleCountCall, ht]

theorem selectors_depend_only_on_first_arg_witness :
    blockCall [JSVal.str "0xabc", JSVal.num 1] = blockCall [JSVal.str "0xabc"] ∧
    transactionFromBlockCall [JSVal.str "0xabc", JSVal.num 1] =
      transactionFromBlockCall [JSVal.str "0xabc"] ∧
    uncleCall [JSVal.str "0xabc", JSVal.num 1] = uncleCall [JSVal.str "0xabc"] ∧
    getBlockTransactionCountCall [JSVal.str "0xabc", JSVal.num 1] =
      getBlockTransactionCountCall [JSVal.str "0xabc"] ∧
    uncleCountCall [JSVal.str "0xabc", JSVal.num 1] =
      uncleCountCall [JSVal.str "0xabc"] :=
  selectors_depend_only_on_first_arg
    [JSVal.str "0xabc", JSVal.num 1] [JSVal.str "0xabc"] (by decide)

/-- Claim C7: descriptor names are unique within the method sequence and
within the property sequence. -/
theorem descriptor_names_unique :
    (methods.map Method.name).Nodup ∧ (properties.map Property.name).Nodup := by
  constructor <;> decide

/-- Claim C8: every property descriptor carrying a deprecated field has a
non-empty replacement path there, distinct from its own name. -/
theorem deprecated_paths_wellformed :
    ∀ p ∈ properties, ∀ d, p.deprecated = some d → d ≠ "" ∧ d ≠ p.name := by
  intro p hp d hd
  simp only [properties, List.mem_cons, List.not_mem_nil, or_false] at hp
  rcases hp with rfl | rfl | rfl | rfl | rfl | rfl | rfl | rfl <;>
    simp only [Option.some.injEq] at hd
  all_goals first
    | exact absurd hd (by simp)
    | (subst hd; decide)

theorem deprecated_paths_wellformed_witness :
    ("net.listening" : String) ≠ "" ∧ "net.listening" ≠ "listening" :=
  deprecated_paths_wellformed
    { name := "listening", getter := "net_listening",
      setter := some "eth_setListening", outputFormatter := none,
      deprecated := some "net.listening" }
    (by decide) "net.listening" rfl

/-- Claim C9: every method descriptor declares a non-negative parameter
count. -/
theorem paramCounts_nonneg : ∀ m ∈ methods, 0 ≤ m.params := by
  intro m hm
  simp only [methods, List.mem_cons, List.not_mem_nil, or_false] at hm
  rcases hm with rfl | rfl | rfl | rfl | rfl | rfl | rfl | rfl | rfl | rfl |
    rfl | rfl | rfl | rfl | rfl | rfl | rfl <;> decide

theorem paramCounts_nonneg_witness : (0 : Int) ≤ getBalance.params :=
  paramCounts_nonneg getBalance (by simp [methods])

/-- Claim C10: the hash test is case-sensitive and anchored at position
0: a string beginning with uppercase "0X", or one whose only occurrence
of "0x" is at a later position, makes every selector function return its
by-number selector. -/
theorem hash_test_case_sensitive_anchored (s : String)
    (h : beginsWith ['0', 'X'] s.data = true ∨
         (beginsWith ['0', 'x'] s.data = false ∧
          ∃ i, 0 < i ∧ beginsWith ['0', 'x'] (s.data.drop i) = true)) :
    blockCall [JSVal.str s] = "eth_getBlockByNumber" ∧
    transactionFromBlockCall [JSVal.str s] =
      "eth_getTransactionByBlockNumberAndIndex" ∧
    uncleCall [JSVal.str s] = "eth_getUncleByBlockNumberAndIndex" ∧
    getBlockTransactionCountCall [JSVal.str s] =
      "eth_getBlockTransactionCountByNumber" ∧
    uncleCountCall [JSVal.str s] = "eth_getUncleCountByBlockNumber" := by
  have hb : beginsWith ['0', 'x'] s.data = false := by
    rcases h with h | h
    · cases hd : s.data with
      | nil => rw [hd] at h; exact absurd h (by decide)
      | cons c t =>
          cases t with
          | nil =>
              rw [hd] at h
              simp [beginsWith] at h
          | cons d t2 =>
              rw [hd] at h
              simp only [beginsWith, Bool.and_eq_true, beq_iff_eq] at h
              obtain ⟨rfl, rfl, -⟩ := h
              have hx : ('x' == 'X') = false := by decide
              simp [beginsWith, hx]
    · exact h.1
  have hfalse : isHashFirstArg [JSVal.str s] = false := by
    rw [isHashFirstArg_eq_specHashArg]
    simpa [specHashArg, jsIndex] using hb
  simp [blockCall, transactionFromBlockCall, uncleCall,
    getBlockTransactionCountCall, uncleCountCall, hfalse]

theorem hash_test_case_sensitive_anchored_witness :
    (blockCall [JSVal.str "0XABC"] = "eth_getBlockByNumber" ∧
     transactionFromBlockCall [JSVal.str "0XABC"] =
       "eth_getTransactionByBlockNumberAndIndex" ∧
     uncleCall [JSVal.str "0XABC"] = "eth_getUncleByBlockNumberAndIndex" ∧
     getBlockTransactionCountCall [JSVal.str "0XABC"] =
       "eth_getBlockTransactionCountByNumber" ∧
     uncleCountCall [JSVal.str "0XABC"] = "eth_getUncleCountByBlockNumber") ∧
    (blockCall [JSVal.str "a0x1"] = "eth_getBlockByNumber" ∧
     transactionFromBlockCall [JSVal.str "a0x1"] =
       "eth_getTransactionByBlockNumberAndIndex" ∧
     uncleCall [JSVal.str "a0x1"] = "eth_getUncleByBlockNumberAndIndex" ∧
     getBlockTransactionCountCall [JSVal.str "a0x1"] =
       "eth_getBlockTransactionCountByNumber" ∧
     uncleCountCall [JSVal.str "a0x1"] = "eth_getUncleCountByBlockNumber") :=
  ⟨hash_test_case_sensitive_anchored "0XABC" (Or.inl (by decide)),
   hash_test_case_sensitive_anchored "a0x1"
     (Or.inr ⟨by decide, 1, by decide, by decide⟩)⟩

end Eth
